import Mathlib

/-!
Verification of the constant table of `CustomEventChannels.h`.

`src/assets/KnowHow/CustomEventChannels/CustomEventChannels.h` is a header generated by
the Message Compiler.  It holds two provider GUID constants and sixteen channel-ID
definitions and no executable code.  The development below transcribes every
declaration of the header, in source order, and proves the properties the
specification states about the table.

Text is handled as `List Char` so that every function is structurally recursive
and evaluates inside the kernel.
-/

namespace CustomEventChannels

/-! ## Data model -/

/-- Modelled from the spec: the `GUID` aggregate type.  The header initialises two
constants of this type but does not declare it (it comes from the Windows SDK).  The
specification describes it as a 128-bit value in 8-4-4-4-12 grouping: a 32-bit
`Data1`, 16-bit `Data2` and `Data3`, and eight bytes `Data4`.  The fields hold the
values exactly as written in a brace initialiser; `GUID.WellFormed` says that they
fit the declared widths and `GUID.store` is the conversion to those widths. -/
structure GUID where
  Data1 : Nat
  Data2 : Nat
  Data3 : Nat
  Data4 : List Nat
deriving DecidableEq

/-- The initialiser values fit the fields: no scalar exceeds its width and the
byte array has exactly eight entries, each a byte. -/
def GUID.WellFormed (g : GUID) : Prop :=
  g.Data1 < 2 ^ 32 ∧ g.Data2 < 2 ^ 16 ∧ g.Data3 < 2 ^ 16 ∧
    g.Data4.length = 8 ∧ ∀ b ∈ g.Data4, b < 2 ^ 8

instance GUID.decidableWellFormed (g : GUID) : Decidable g.WellFormed := by
  unfold GUID.WellFormed
  infer_instance

/-- Conversion of initialiser values to the fixed-width fields: scalars are reduced
modulo their width, the byte array is zero-filled or cut to eight entries and each
entry is reduced to a byte. -/
def GUID.store (g : GUID) : GUID :=
  ⟨g.Data1 % 2 ^ 32, g.Data2 % 2 ^ 16, g.Data3 % 2 ^ 16,
    ((g.Data4 ++ List.replicate 8 0).take 8).map (· % 2 ^ 8)⟩

/-- The all-zero GUID. -/
def GUID.nil : GUID := ⟨0, 0, 0, [0, 0, 0, 0, 0, 0, 0, 0]⟩

/-- Modelled from the spec: the 128-bit number a GUID denotes, most significant
field first, which is the number its 32 hexadecimal digits spell. -/
def GUID.toNat (g : GUID) : Nat :=
  ((g.Data1 * 2 ^ 16 + g.Data2) * 2 ^ 16 + g.Data3) * 2 ^ 64 +
    g.Data4.foldl (fun acc b => acc * 2 ^ 8 + b) 0

/-! ## The header, declaration by declaration -/

/-- Line 10: `const GUID WEC_EVENTS_Basic = {0xcf27f07f, 0x7013, 0x483a, {...}}`. -/
def WEC_EVENTS_Basic : GUID :=
  ⟨0xcf27f07f, 0x7013, 0x483a, [0xbc, 0x74, 0x97, 0xa0, 0xf6, 0xaa, 0x32, 0xfc]⟩

-- Lines 15-22: the channel IDs of provider Corp-WEC-Basic.
def WEC_Basic_Domain_Controllers : Nat := 0x10
def WEC_Basic_Member_Servers : Nat := 0x11
def WEC_Basic_Privileged_Access_Workstations : Nat := 0x12
def WEC_Basic_Clients : Nat := 0x13
def WEC_Basic_Critical : Nat := 0x14
def WEC_Basic_Security : Nat := 0x15
def WEC_Basic_PowerShell : Nat := 0x16
def WEC_Basic_Application : Nat := 0x17

/-- Line 30: `const GUID WEC_EVENTS_Advanced = {0x0014355c, 0xd05c, 0x4b81, {...}}`. -/
def WEC_EVENTS_Advanced : GUID :=
  ⟨0x0014355c, 0xd05c, 0x4b81, [0x9c, 0x93, 0x1f, 0x6a, 0x39, 0x07, 0xe5, 0x35]⟩

-- Lines 35-42: the channel IDs of provider Corp-WEC-Advanced.
def WEC_Advanced_Domain_Controllers : Nat := 0x10
def WEC_Advanced_Member_Servers : Nat := 0x11
def WEC_Advanced_Privileged_Access_Workstations : Nat := 0x12
def WEC_Advanced_Clients : Nat := 0x13
def WEC_Advanced_Critical : Nat := 0x14
def WEC_Advanced_Security : Nat := 0x15
def WEC_Advanced_PowerShell : Nat := 0x16
def WEC_Advanced_Application : Nat := 0x17

/-- One declaration of the header: a GUID constant or a `#define` of an integer. -/
inductive Decl where
  | guid (name : String) (value : GUID)
  | define (name : String) (value : Nat)
deriving DecidableEq

/-- The eighteen declarations of the header in source order. -/
def header : List Decl :=
  [ .guid "WEC_EVENTS_Basic" WEC_EVENTS_Basic,
    .define "WEC_Basic_Domain_Controllers" WEC_Basic_Domain_Controllers,
    .define "WEC_Basic_Member_Servers" WEC_Basic_Member_Servers,
    .define "WEC_Basic_Privileged_Access_Workstations" WEC_Basic_Privileged_Access_Workstations,
    .define "WEC_Basic_Clients" WEC_Basic_Clients,
    .define "WEC_Basic_Critical" WEC_Basic_Critical,
    .define "WEC_Basic_Security" WEC_Basic_Security,
    .define "WEC_Basic_PowerShell" WEC_Basic_PowerShell,
    .define "WEC_Basic_Application" WEC_Basic_Application,
    .guid "WEC_EVENTS_Advanced" WEC_EVENTS_Advanced,
    .define "WEC_Advanced_Domain_Controllers" WEC_Advanced_Domain_Controllers,
    .define "WEC_Advanced_Member_Servers" WEC_Advanced_Member_Servers,
    .define "WEC_Advanced_Privileged_Access_Workstations" WEC_Advanced_Privileged_Access_Workstations,
    .define "WEC_Advanced_Clients" WEC_Advanced_Clients,
    .define "WEC_Advanced_Critical" WEC_Advanced_Critical,
    .define "WEC_Advanced_Security" WEC_Advanced_Security,
    .define "WEC_Advanced_PowerShell" WEC_Advanced_PowerShell,
    .define "WEC_Advanced_Application" WEC_Advanced_Application ]

/-! ## Looking symbols up by name -/

/-- The GUID constants of a declaration list, as (symbol, value) pairs. -/
def guidsOf (t : List Decl) : List (String × GUID) :=
  t.filterMap fun d =>
    match d with
    | .guid n v => some (n, v)
    | .define _ _ => none

/-- The `#define` lines of a declaration list, as (symbol, value) pairs. -/
def definesOf (t : List Decl) : List (String × Nat) :=
  t.filterMap fun d =>
    match d with
    | .guid _ _ => none
    | .define n v => some (n, v)

/-- Remove the leading run `lead` from `cs`, if `cs` starts with it. -/
def dropLead : List Char → List Char → Option (List Char)
  | [], cs => some cs
  | _ :: _, [] => none
  | l :: ls, c :: cs => if l = c then dropLead ls cs else none

/-- The providers of the header: the symbols `WEC_EVENTS_<provider>`. -/
def providers : List String :=
  (guidsOf header).filterMap fun e =>
    (dropLead "WEC_EVENTS_".toList e.1.toList).map String.mk

/-- The GUID of a provider: the value of the symbol `WEC_EVENTS_<provider>`. -/
def providerGUID? (p : String) : Option GUID :=
  (guidsOf header).lookup ("WEC_EVENTS_" ++ p)

/-- The channel table of a provider: every symbol `WEC_<provider>_<channel>` with
its value, in source order, keyed by the channel name. -/
def channelsOf (p : String) : List (String × Nat) :=
  (definesOf header).filterMap fun e =>
    (dropLead ("WEC_" ++ p ++ "_").toList e.1.toList).map fun c => (String.mk c, e.2)

/-- The channel ID of a channel of a provider: the value of the symbol
`WEC_<provider>_<channel>`. -/
def channelId? (p c : String) : Option Nat :=
  (definesOf header).lookup ("WEC_" ++ p ++ "_" ++ c)

/-! ## Hexadecimal text -/

/-- The lowercase hexadecimal digit of a value below sixteen. -/
def hexDigit (d : Nat) : Char :=
  if d < 10 then Char.ofNat (48 + d) else Char.ofNat (87 + d)

/-- The last `w` hexadecimal digits of `n`, zero-padded to exactly `w` digits. -/
def toHex : Nat → Nat → List Char
  | 0, _ => []
  | w + 1, n => toHex w (n / 16) ++ [hexDigit (n % 16)]

/-- The bytes of a list, two hexadecimal digits each. -/
def hexBytes : List Nat → List Char
  | [] => []
  | b :: bs => toHex 2 b ++ hexBytes bs

/-- Modelled from the spec: the canonical lowercase 8-4-4-4-12 rendering of a GUID,
which the header does not contain: `Data1` as 8 digits, `Data2` as 4, `Data3` as 4,
`Data4[0..1]` as 4 and `Data4[2..7]` as 12, each zero-padded, joined by hyphens. -/
def renderGUID (g : GUID) : List Char :=
  toHex 8 g.Data1 ++ '-' :: (toHex 4 g.Data2 ++ '-' :: (toHex 4 g.Data3 ++
    '-' :: (hexBytes (g.Data4.take 2) ++ '-' :: hexBytes (g.Data4.drop 2))))

/-- The number of hexadecimal digits of `n` without leading zeros (one for zero);
the first argument bounds the number of divisions. -/
def hexLen : Nat → Nat → Nat
  | 0, _ => 1
  | fuel + 1, n => if n < 16 then 1 else hexLen fuel (n / 16) + 1

/-- The digits of a hexadecimal literal, without the `0x` and without leading zeros. -/
def hexLiteral (n : Nat) : List Char := toHex (hexLen n n) n

/-- The value of a hexadecimal digit of either case. -/
def hexValue? (c : Char) : Option Nat :=
  if 48 ≤ c.toNat ∧ c.toNat ≤ 57 then some (c.toNat - 48)
  else if 97 ≤ c.toNat ∧ c.toNat ≤ 102 then some (c.toNat - 87)
  else if 65 ≤ c.toNat ∧ c.toNat ≤ 70 then some (c.toNat - 55)
  else none

/-- Read hexadecimal digits, most significant first, onto an accumulator. -/
def parseHexFrom : Nat → List Char → Option Nat
  | acc, [] => some acc
  | acc, c :: cs =>
    match hexValue? c with
    | some d => parseHexFrom (acc * 16 + d) cs
    | none => none

/-- Read a non-empty run of hexadecimal digits as a number. -/
def parseHex? (cs : List Char) : Option Nat :=
  match cs with
  | [] => none
  | _ :: _ => parseHexFrom 0 cs

/-- Read pairs of hexadecimal digits as bytes. -/
def parseBytes? : List Char → Option (List Nat)
  | [] => some []
  | [_] => none
  | a :: b :: rest =>
    match parseHexFrom 0 [a, b], parseBytes? rest with
    | some v, some vs => some (v :: vs)
    | _, _ => none

/-- Split a text at every occurrence of a separator. -/
def splitOn (sep : Char) : List Char → List (List Char)
  | [] => [[]]
  | c :: cs =>
    if c = sep then [] :: splitOn sep cs
    else
      match splitOn sep cs with
      | [] => [[c]]
      | g :: gs => (c :: g) :: gs

/-- Modelled from the spec: reading a GUID from its 8-4-4-4-12 text, which the header
does not contain.  The text must have exactly five hyphen-separated groups of 8, 4,
4, 4 and 12 hexadecimal digits; the last two groups are the eight bytes. -/
def parseGUID? (cs : List Char) : Option GUID :=
  match splitOn '-' cs with
  | [g1, g2, g3, g4, g5] =>
    if g1.length = 8 ∧ g2.length = 4 ∧ g3.length = 4 ∧ g4.length = 4 ∧ g5.length = 12 then
      match parseHexFrom 0 g1, parseHexFrom 0 g2, parseHexFrom 0 g3, parseBytes? (g4 ++ g5) with
      | some d1, some d2, some d3, some d4 => some ⟨d1, d2, d3, d4⟩
      | _, _, _, _ => none
    else none
  | _ => none

/-! ## The table as text -/

/-- Modelled from the spec: one declaration as a line of text, the symbol, a blank and
the value: a GUID as its 8-4-4-4-12 string, a channel ID as its hexadecimal literal. -/
def renderDecl : Decl → List Char
  | .guid n g => n.toList ++ ' ' :: renderGUID g
  | .define n v => n.toList ++ ' ' :: '0' :: 'x' :: hexLiteral v

/-- Join lines with a line feed between them. -/
def joinLines : List (List Char) → List Char
  | [] => []
  | [l] => l
  | l :: m :: ls => l ++ Char.ofNat 10 :: joinLines (m :: ls)

/-- Modelled from the spec: the constant table serialised to text, one line per
declaration. -/
def serialise (t : List Decl) : List Char := joinLines (t.map renderDecl)

/-- Modelled from the spec: reading one line back: a value that starts with `0x` is
a hexadecimal literal, any other value must be a GUID string. -/
def parseDecl? (line : List Char) : Option Decl :=
  match splitOn ' ' line with
  | [n, v] =>
    match v with
    | '0' :: 'x' :: ds => (parseHex? ds).map (Decl.define (String.mk n))
    | _ => (parseGUID? v).map (Decl.guid (String.mk n))
  | _ => none

/-- Read every line of a list, failing when one line fails. -/
def parseDecls? : List (List Char) → Option (List Decl)
  | [] => some []
  | l :: ls =>
    match parseDecl? l, parseDecls? ls with
    | some d, some ds => some (d :: ds)
    | _, _ => none

/-- Modelled from the spec: reading a serialised table back (the empty text is the
empty table). -/
def parse? (text : List Char) : Option (List Decl) :=
  match text with
  | [] => some []
  | _ :: _ => parseDecls? (splitOn (Char.ofNat 10) text)

/-- A declaration that can be written as one line and read back: its symbol has no
blank and no line feed, and a GUID value is well formed. -/
def Decl.Printable : Decl → Prop
  | .guid n g => (∀ c ∈ n.toList, c ≠ ' ' ∧ c ≠ Char.ofNat 10) ∧ g.WellFormed
  | .define n _ => ∀ c ∈ n.toList, c ≠ ' ' ∧ c ≠ Char.ofNat 10

instance Decl.decidablePrintable (d : Decl) : Decidable d.Printable := by
  cases d <;> unfold Decl.Printable <;> infer_instance

/-! ## Supporting lemmas -/

theorem dropLead_eq_some_iff (l k r : List Char) : dropLead l k = some r ↔ k = l ++ r := by
  induction l generalizing k with
  | nil => simp [dropLead, eq_comm]
  | cons a l ih =>
    cases k with
    | nil => simp [dropLead]
    | cons b k =>
      by_cases hab : a = b
      · subst hab
        simp [dropLead, ih]
      · have hba : ¬ b = a := fun h => hab h.symm
        simp [dropLead, hab, hba]

theorem toList_mk_append (lead : List Char) (c : String) :
    (String.mk lead ++ c).toList = lead ++ c.toList := rfl

/-- Looking a prefixed symbol up among the definitions is looking the bare name up
in the table of the names that carry the prefix. -/
theorem lookup_lead (lead : List Char) (c : String) (l : List (String × Nat)) :
    l.lookup (String.mk lead ++ c) =
      (l.filterMap fun e =>
        (dropLead lead e.1.toList).map fun r => (String.mk r, e.2)).lookup c := by
  induction l with
  | nil => rfl
  | cons e tl ih =>
    obtain ⟨k, v⟩ := e
    cases hd : dropLead lead k.toList with
    | none =>
      have hne : ¬ (String.mk lead ++ c = k) := by
        intro h
        have h2 : dropLead lead k.toList = some c.toList :=
          (dropLead_eq_some_iff _ _ _).2 (by rw [← h, toList_mk_append])
        rw [hd] at h2
        cases h2
      have hb : (String.mk lead ++ c == k) = false := by simpa using hne
      simp only [List.lookup_cons, hb, List.filterMap_cons, hd, Option.map_none', ih]
    | some r =>
      have hk : k.toList = lead ++ r := (dropLead_eq_some_iff _ _ _).1 hd
      by_cases hc : c = String.mk r
      · subst hc
        have hb : (String.mk lead ++ String.mk r == k) = true := by
          simp only [beq_iff_eq]
          exact String.ext hk.symm
        simp only [List.lookup_cons, hb, List.filterMap_cons, hd, Option.map_some', beq_self_eq_true]
      · have hne : ¬ (String.mk lead ++ c = k) := by
          intro h
          apply hc
          have h3 : lead ++ c.toList = lead ++ r := by rw [← toList_mk_append, h, hk]
          exact String.ext (List.append_cancel_left h3)
        have hb : (String.mk lead ++ c == k) = false := by simpa using hne
        have hb2 : (c == String.mk r) = false := by simpa using hc
        simp only [List.lookup_cons, hb, List.filterMap_cons, hd, Option.map_some', hb2, ih]

/-- The channel ID of a channel is the entry of its name in the provider's table. -/
theorem channelId_eq_lookup (p c : String) : channelId? p c = (channelsOf p).lookup c :=
  lookup_lead ("WEC_" ++ p ++ "_").toList c (definesOf header)

theorem mem_of_lookup_eq_some (l : List (String × Nat)) (c : String) (v : Nat)
    (h : l.lookup c = some v) : (c, v) ∈ l := by
  induction l with
  | nil => cases h
  | cons e tl ih =>
    obtain ⟨k, w⟩ := e
    by_cases hck : c = k
    · subst hck
      simp only [List.lookup_cons, beq_self_eq_true, Option.some.injEq] at h
      subst h
      exact List.mem_cons_self _ _
    · have hb : (c == k) = false := by simpa using hck
      simp only [List.lookup_cons, hb] at h
      exact List.mem_cons_of_mem _ (ih h)

theorem providers_eq : providers = ["Basic", "Advanced"] := by decide

theorem channelsOf_Basic : channelsOf "Basic" =
    [("Domain_Controllers", 0x10), ("Member_Servers", 0x11),
      ("Privileged_Access_Workstations", 0x12), ("Clients", 0x13), ("Critical", 0x14),
      ("Security", 0x15), ("PowerShell", 0x16), ("Application", 0x17)] := by decide

theorem channelsOf_Advanced : channelsOf "Advanced" =
    [("Domain_Controllers", 0x10), ("Member_Servers", 0x11),
      ("Privileged_Access_Workstations", 0x12), ("Clients", 0x13), ("Critical", 0x14),
      ("Security", 0x15), ("PowerShell", 0x16), ("Application", 0x17)] := by decide

theorem hexValue_hexDigit : ∀ d, d < 16 → hexValue? (hexDigit d) = some d := by decide

theorem hexDigit_ne (c : Char) (hc : hexValue? c = none) (d : Nat) (hd : d < 16) :
    hexDigit d ≠ c := by
  intro h
  have hv := hexValue_hexDigit d hd
  rw [h, hc] at hv
  cases hv

theorem toHex_length (w n : Nat) : (toHex w n).length = w := by
  induction w generalizing n with
  | zero => rfl
  | succ w ih => simp [toHex, ih]

theorem toHex_ne (c : Char) (hc : hexValue? c = none) (w n : Nat) :
    ∀ x ∈ toHex w n, x ≠ c := by
  induction w generalizing n with
  | zero => simp [toHex]
  | succ w ih =>
    intro x hx
    simp only [toHex, List.mem_append, List.mem_singleton] at hx
    rcases hx with hx | hx
    · exact ih _ x hx
    · subst hx
      exact hexDigit_ne c hc _ (Nat.mod_lt _ (by decide))

theorem parseHexFrom_append (acc : Nat) (xs ys : List Char) :
    parseHexFrom acc (xs ++ ys) = (parseHexFrom acc xs).bind fun a => parseHexFrom a ys := by
  induction xs generalizing acc with
  | nil => rfl
  | cons x xs ih =>
    simp only [List.cons_append, parseHexFrom]
    cases hexValue? x with
    | none => rfl
    | some d => exact ih _

theorem parseHexFrom_toHex (w acc n : Nat) :
    parseHexFrom acc (toHex w n) = some (acc * 16 ^ w + n % 16 ^ w) := by
  induction w generalizing acc n with
  | zero => simp [toHex, parseHexFrom, Nat.mod_one]
  | succ w ih =>
    rw [toHex, parseHexFrom_append, ih]
    simp only [Option.some_bind, parseHexFrom, hexValue_hexDigit _ (Nat.mod_lt n (by decide : 0 < 16))]
    congr 1
    rw [pow_succ', Nat.mod_mul]
    ring

theorem parseHexFrom_toHex_of_lt (w n : Nat) (h : n < 16 ^ w) :
    parseHexFrom 0 (toHex w n) = some n := by
  rw [parseHexFrom_toHex, Nat.mod_eq_of_lt h]
  simp

theorem splitOn_of_no_sep (sep : Char) (xs : List Char) (h : ∀ c ∈ xs, c ≠ sep) :
    splitOn sep xs = [xs] := by
  induction xs with
  | nil => rfl
  | cons x xs ih =>
    have hx : x ≠ sep := h x (List.mem_cons_self _ _)
    have hxs : ∀ c ∈ xs, c ≠ sep := fun c hc => h c (List.mem_cons_of_mem _ hc)
    simp [splitOn, hx, ih hxs]

theorem splitOn_append_sep (sep : Char) (xs rest : List Char) (h : ∀ c ∈ xs, c ≠ sep) :
    splitOn sep (xs ++ sep :: rest) = xs :: splitOn sep rest := by
  induction xs with
  | nil => simp [splitOn]
  | cons x xs ih =>
    have hx : x ≠ sep := h x (List.mem_cons_self _ _)
    have hxs : ∀ c ∈ xs, c ≠ sep := fun c hc => h c (List.mem_cons_of_mem _ hc)
    simp [splitOn, hx, ih hxs]

theorem hexBytes_append (xs ys : List Nat) : hexBytes (xs ++ ys) = hexBytes xs ++ hexBytes ys := by
  induction xs with
  | nil => rfl
  | cons x xs ih => simp [hexBytes, ih]

theorem hexBytes_length (xs : List Nat) : (hexBytes xs).length = 2 * xs.length := by
  induction xs with
  | nil => rfl
  | cons x xs ih => simp [hexBytes, toHex_length, ih]; omega

theorem hexBytes_ne (c : Char) (hc : hexValue? c = none) (xs : List Nat) :
    ∀ x ∈ hexBytes xs, x ≠ c := by
  induction xs with
  | nil => simp [hexBytes]
  | cons b bs ih =>
    intro x hx
    simp only [hexBytes, List.mem_append] at hx
    rcases hx with hx | hx
    · exact toHex_ne c hc _ _ x hx
    · exact ih x hx

theorem parseBytes_hexBytes (xs : List Nat) (h : ∀ b ∈ xs, b < 2 ^ 8) :
    parseBytes? (hexBytes xs) = some xs := by
  induction xs with
  | nil => rfl
  | cons x xs ih =>
    have hx : x < 16 ^ 2 := h x (List.mem_cons_self _ _)
    have hxs : ∀ b ∈ xs, b < 2 ^ 8 := fun b hb => h b (List.mem_cons_of_mem _ hb)
    have h2 := parseHexFrom_toHex_of_lt 2 x hx
    simp only [toHex, List.nil_append, List.singleton_append] at h2
    simp [hexBytes, toHex, parseBytes?, h2, ih hxs]

/-- Reading back the rendering of a well-formed GUID gives the GUID. -/
theorem parseGUID_renderGUID (g : GUID) (h : g.WellFormed) :
    parseGUID? (renderGUID g) = some g := by
  obtain ⟨h1, h2, h3, hlen, hb⟩ := h
  have e1 := splitOn_append_sep '-' (toHex 8 g.Data1)
    (toHex 4 g.Data2 ++ '-' :: (toHex 4 g.Data3 ++
      '-' :: (hexBytes (g.Data4.take 2) ++ '-' :: hexBytes (g.Data4.drop 2)))) (toHex_ne _ (by decide) _ _)
  have e2 := splitOn_append_sep '-' (toHex 4 g.Data2)
    (toHex 4 g.Data3 ++
      '-' :: (hexBytes (g.Data4.take 2) ++ '-' :: hexBytes (g.Data4.drop 2))) (toHex_ne _ (by decide) _ _)
  have e3 := splitOn_append_sep '-' (toHex 4 g.Data3)
    (hexBytes (g.Data4.take 2) ++ '-' :: hexBytes (g.Data4.drop 2)) (toHex_ne _ (by decide) _ _)
  have e4 := splitOn_append_sep '-' (hexBytes (g.Data4.take 2))
    (hexBytes (g.Data4.drop 2)) (hexBytes_ne _ (by decide) _)
  have e5 := splitOn_of_no_sep '-' (hexBytes (g.Data4.drop 2)) (hexBytes_ne _ (by decide) _)
  have hs : splitOn '-' (renderGUID g) =
      [toHex 8 g.Data1, toHex 4 g.Data2, toHex 4 g.Data3, hexBytes (g.Data4.take 2),
        hexBytes (g.Data4.drop 2)] := by
    unfold renderGUID
    rw [e1, e2, e3, e4, e5]
  have hb4 : parseBytes? (hexBytes (g.Data4.take 2) ++ hexBytes (g.Data4.drop 2)) =
      some g.Data4 := by
    rw [← hexBytes_append, List.take_append_drop]
    exact parseBytes_hexBytes _ hb
  have p1 := parseHexFrom_toHex_of_lt 8 g.Data1 (by simpa using h1)
  have p2 := parseHexFrom_toHex_of_lt 4 g.Data2 (by simpa using h2)
  have p3 := parseHexFrom_toHex_of_lt 4 g.Data3 (by simpa using h3)
  unfold parseGUID?
  rw [hs]
  simp only [toHex_length, hexBytes_length, List.length_take, List.length_drop, hlen, p1, p2, p3,
    hb4]
  simp

theorem renderGUID_ne (c : Char) (hc : hexValue? c = none) (hy : c ≠ '-') (g : GUID) :
    ∀ x ∈ renderGUID g, x ≠ c := by
  intro x hx
  simp only [renderGUID, List.mem_append, List.mem_cons] at hx
  rcases hx with hx | hx | hx | hx | hx | hx | hx | hx | hx
  · exact toHex_ne c hc _ _ x hx
  · exact hx ▸ hy.symm
  · exact toHex_ne c hc _ _ x hx
  · exact hx ▸ hy.symm
  · exact toHex_ne c hc _ _ x hx
  · exact hx ▸ hy.symm
  · exact hexBytes_ne c hc _ x hx
  · exact hx ▸ hy.symm
  · exact hexBytes_ne c hc _ x hx

theorem lt_pow_hexLen (fuel n : Nat) (h : n ≤ fuel) : n < 16 ^ hexLen fuel n := by
  induction fuel generalizing n with
  | zero =>
    have h0 : n = 0 := by omega
    subst h0
    decide
  | succ f ih =>
    unfold hexLen
    split
    · omega
    · have hq : n / 16 ≤ f := by omega
      have hlt := ih (n / 16) hq
      rw [pow_succ]
      omega

theorem hexLen_pos (fuel n : Nat) : 0 < hexLen fuel n := by
  cases fuel with
  | zero => simp [hexLen]
  | succ f =>
    unfold hexLen
    split <;> omega

theorem parseHex_of_ne_nil (cs : List Char) (h : cs ≠ []) : parseHex? cs = parseHexFrom 0 cs := by
  cases cs with
  | nil => exact absurd rfl h
  | cons c cs => rfl

theorem hexLiteral_ne_nil (n : Nat) : hexLiteral n ≠ [] := by
  intro h
  have hl := toHex_length (hexLen n n) n
  have hp := hexLen_pos n n
  unfold hexLiteral at h
  rw [h] at hl
  simp at hl
  omega

/-- Reading back a hexadecimal literal gives its value. -/
theorem parseHex_hexLiteral (n : Nat) : parseHex? (hexLiteral n) = some n := by
  rw [parseHex_of_ne_nil _ (hexLiteral_ne_nil n)]
  exact parseHexFrom_toHex_of_lt _ _ (lt_pow_hexLen n n (Nat.le_refl n))

theorem renderDecl_no_lf (d : Decl) (h : d.Printable) :
    ∀ x ∈ renderDecl d, x ≠ Char.ofNat 10 := by
  intro x hx
  cases d with
  | guid n g =>
    simp only [renderDecl, List.mem_append, List.mem_cons] at hx
    rcases hx with hx | hx | hx
    · exact (h.1 x hx).2
    · subst hx; decide
    · exact renderGUID_ne _ (by decide) (by decide) g x hx
  | define n v =>
    simp only [renderDecl, List.mem_append, List.mem_cons] at hx
    rcases hx with hx | hx | hx | hx | hx
    · exact (h x hx).2
    · subst hx; decide
    · subst hx; decide
    · subst hx; decide
    · exact toHex_ne _ (by decide) _ _ x hx

theorem renderDecl_ne_nil (d : Decl) : renderDecl d ≠ [] := by
  cases d <;> simp [renderDecl]

/-- Reading back the line of a printable declaration gives the declaration. -/
theorem parseDecl_renderDecl (d : Decl) (h : d.Printable) : parseDecl? (renderDecl d) = some d := by
  cases d with
  | guid n g =>
    have hn : ∀ c ∈ n.toList, c ≠ ' ' := fun c hc => (h.1 c hc).1
    have hs : splitOn ' ' (n.toList ++ ' ' :: renderGUID g) = [n.toList, renderGUID g] := by
      rw [splitOn_append_sep _ _ _ hn,
        splitOn_of_no_sep _ _ (renderGUID_ne _ (by decide) (by decide) g)]
    have hx : ∀ x ∈ renderGUID g, x ≠ 'x' := renderGUID_ne _ (by decide) (by decide) g
    unfold parseDecl? renderDecl
    rw [hs]
    simp only
    split
    · rename_i ds hds
      exact absurd rfl (hx 'x' (by rw [hds]; simp))
    · rw [parseGUID_renderGUID g h.2]
      rfl
  | define n v =>
    have hn : ∀ c ∈ n.toList, c ≠ ' ' := fun c hc => (h c hc).1
    have hv : ∀ c ∈ '0' :: 'x' :: hexLiteral v, c ≠ ' ' := by
      intro c hc
      simp only [List.mem_cons] at hc
      rcases hc with hc | hc | hc
      · subst hc; decide
      · subst hc; decide
      · exact toHex_ne _ (by decide) _ _ c hc
    have hs : splitOn ' ' (n.toList ++ ' ' :: '0' :: 'x' :: hexLiteral v) =
        [n.toList, '0' :: 'x' :: hexLiteral v] := by
      rw [splitOn_append_sep _ _ _ hn, splitOn_of_no_sep _ _ hv]
    unfold parseDecl? renderDecl
    rw [hs]
    simp only [parseHex_hexLiteral]
    rfl

theorem splitOn_joinLines (l : List Char) (ls : List (List Char))
    (h : ∀ m ∈ l :: ls, ∀ c ∈ m, c ≠ Char.ofNat 10) :
    splitOn (Char.ofNat 10) (joinLines (l :: ls)) = l :: ls := by
  induction ls generalizing l with
  | nil =>
    simp only [joinLines]
    exact splitOn_of_no_sep _ _ (h l (List.mem_cons_self _ _))
  | cons m ms ih =>
    have hl := h l (List.mem_cons_self _ _)
    have ht : ∀ k ∈ m :: ms, ∀ c ∈ k, c ≠ Char.ofNat 10 :=
      fun k hk => h k (List.mem_cons_of_mem _ hk)
    simp only [joinLines]
    rw [splitOn_append_sep _ _ _ hl, ih m ht]

theorem parseDecls_map_renderDecl (t : List Decl) (h : ∀ d ∈ t, d.Printable) :
    parseDecls? (t.map renderDecl) = some t := by
  induction t with
  | nil => rfl
  | cons d ds ih =>
    have hd := h d (List.mem_cons_self _ _)
    have hds : ∀ e ∈ ds, e.Printable := fun e he => h e (List.mem_cons_of_mem _ he)
    simp only [List.map_cons, parseDecls?, parseDecl_renderDecl d hd, ih hds]

theorem joinLines_ne_nil (l : List Char) (ls : List (List Char)) (h : l ≠ []) :
    joinLines (l :: ls) ≠ [] := by
  cases ls with
  | nil => simpa [joinLines] using h
  | cons m ms => simp [joinLines]

/-- Reading back the text of a table of printable declarations gives the table. -/
theorem parse_serialise (t : List Decl) (h : ∀ d ∈ t, d.Printable) :
    parse? (serialise t) = some t := by
  cases t with
  | nil => rfl
  | cons d ds =>
    have hsplit : splitOn (Char.ofNat 10) (serialise (d :: ds)) = (d :: ds).map renderDecl := by
      have hlf : ∀ m ∈ renderDecl d :: ds.map renderDecl, ∀ c ∈ m, c ≠ Char.ofNat 10 := by
        intro m hm
        rw [← List.map_cons, List.mem_map] at hm
        obtain ⟨e, he, rfl⟩ := hm
        exact renderDecl_no_lf e (h e he)
      exact splitOn_joinLines (renderDecl d) (ds.map renderDecl) hlf
    have hne : serialise (d :: ds) ≠ [] := joinLines_ne_nil _ _ (renderDecl_ne_nil d)
    unfold parse?
    split
    · rename_i heq
      exact absurd heq hne
    · rw [hsplit]
      exact parseDecls_map_renderDecl _ h

/-- A well-formed GUID is stored without change: no field is truncated. -/
theorem store_eq_self (g : GUID) (h : g.WellFormed) : g.store = g := by
  obtain ⟨h1, h2, h3, hlen, hb⟩ := h
  have htake : (g.Data4 ++ List.replicate 8 0).take 8 = g.Data4 := by
    rw [← hlen]
    exact List.take_left' rfl
  have hmap : g.Data4.map (· % 2 ^ 8) = g.Data4 := by
    conv_rhs => rw [← List.map_id g.Data4]
    exact List.map_congr_left fun b hb4 => Nat.mod_eq_of_lt (hb b hb4)
  cases g with
  | mk d1 d2 d3 d4 =>
    simp only [GUID.store, GUID.mk.injEq]
    exact ⟨Nat.mod_eq_of_lt h1, Nat.mod_eq_of_lt h2, Nat.mod_eq_of_lt h3, by rw [htake, hmap]⟩

/-- The rendering of a GUID with eight bytes has five groups of 8, 4, 4, 4 and 12
characters. -/
theorem renderGUID_groups (g : GUID) (hlen : g.Data4.length = 8) :
    splitOn '-' (renderGUID g) =
        [toHex 8 g.Data1, toHex 4 g.Data2, toHex 4 g.Data3, hexBytes (g.Data4.take 2),
          hexBytes (g.Data4.drop 2)] ∧
      (splitOn '-' (renderGUID g)).map List.length = [8, 4, 4, 4, 12] := by
  have hs : splitOn '-' (renderGUID g) =
      [toHex 8 g.Data1, toHex 4 g.Data2, toHex 4 g.Data3, hexBytes (g.Data4.take 2),
        hexBytes (g.Data4.drop 2)] := by
    unfold renderGUID
    rw [splitOn_append_sep _ _ _ (toHex_ne _ (by decide) _ _),
      splitOn_append_sep _ _ _ (toHex_ne _ (by decide) _ _),
      splitOn_append_sep _ _ _ (toHex_ne _ (by decide) _ _),
      splitOn_append_sep _ _ _ (hexBytes_ne _ (by decide) _),
      splitOn_of_no_sep _ _ (hexBytes_ne _ (by decide) _)]
  refine ⟨hs, ?_⟩
  rw [hs]
  simp [toHex_length, hexBytes_length, hlen]

/-! ## The claims of the specification -/

/-- Claim C1: the constant `WEC_EVENTS_Basic`, which is the GUID found under the
provider name "Basic", rendered in the canonical lowercase 8-4-4-4-12 form is exactly
`cf27f07f-7013-483a-bc74-97a0f6aa32fc`; its fields are `Data1 = 0xcf27f07f`,
`Data2 = 0x7013`, `Data3 = 0x483a`, `Data4 = [0xbc, 0x74, 0x97, 0xa0, 0xf6, 0xaa, 0x32, 0xfc]`,
and reading the string back gives exactly these fields. -/
theorem WEC_EVENTS_Basic_canonical :
    providerGUID? "Basic" = some WEC_EVENTS_Basic ∧
    String.mk (renderGUID WEC_EVENTS_Basic) = "cf27f07f-7013-483a-bc74-97a0f6aa32fc" ∧
    WEC_EVENTS_Basic.Data1 = 0xcf27f07f ∧
    WEC_EVENTS_Basic.Data2 = 0x7013 ∧
    WEC_EVENTS_Basic.Data3 = 0x483a ∧
    WEC_EVENTS_Basic.Data4 = [0xbc, 0x74, 0x97, 0xa0, 0xf6, 0xaa, 0x32, 0xfc] ∧
    parseGUID? "cf27f07f-7013-483a-bc74-97a0f6aa32fc".toList =
      some ⟨0xcf27f07f, 0x7013, 0x483a, [0xbc, 0x74, 0x97, 0xa0, 0xf6, 0xaa, 0x32, 0xfc]⟩ := by
  refine ⟨by decide, by decide, rfl, rfl, rfl, rfl, by decide⟩

/-- Claim C2: the constant `WEC_EVENTS_Advanced`, the GUID found under the provider
name "Advanced", rendered in the canonical lowercase 8-4-4-4-12 form with every group
zero-padded is exactly `0014355c-d05c-4b81-9c93-1f6a3907e535`; the leading zeros of
`Data1 = 0x0014355c` and of the byte `0x07` (the sixth byte of `Data4`) are kept. -/
theorem WEC_EVENTS_Advanced_canonical :
    providerGUID? "Advanced" = some WEC_EVENTS_Advanced ∧
    String.mk (renderGUID WEC_EVENTS_Advanced) = "0014355c-d05c-4b81-9c93-1f6a3907e535" ∧
    (splitOn '-' (renderGUID WEC_EVENTS_Advanced)).map String.mk =
      ["0014355c", "d05c", "4b81", "9c93", "1f6a3907e535"] ∧
    WEC_EVENTS_Advanced.Data1 = 0x0014355c ∧
    String.mk (toHex 8 WEC_EVENTS_Advanced.Data1) = "0014355c" ∧
    WEC_EVENTS_Advanced.Data4[5]? = some 0x07 ∧
    String.mk (hexBytes (WEC_EVENTS_Advanced.Data4.drop 2)) = "1f6a3907e535" ∧
    String.mk (hexBytes [0x07]) = "07" := by
  refine ⟨by decide, by decide, by decide, rfl, by decide, rfl, by decide, by decide⟩

/-- Claim C3: for each of the two providers (Basic, Advanced) the channel table
assigns, in this order, Domain_Controllers = 0x10, Member_Servers = 0x11,
Privileged_Access_Workstations = 0x12, Clients = 0x13, Critical = 0x14, Security = 0x15,
PowerShell = 0x16, Application = 0x17; the set of its IDs is exactly 0x10..0x17, and the
name-to-ID lookup is a bijection between the eight names and that set.  In particular
the Critical channel of Advanced is 0x14. -/
theorem channel_table_bijection (p : String) (hp : p ∈ providers) :
    providers = ["Basic", "Advanced"] ∧
    channelsOf p =
      [("Domain_Controllers", 0x10), ("Member_Servers", 0x11),
        ("Privileged_Access_Workstations", 0x12), ("Clients", 0x13), ("Critical", 0x14),
        ("Security", 0x15), ("PowerShell", 0x16), ("Application", 0x17)] ∧
    (∀ id : Nat, id ∈ (channelsOf p).map Prod.snd ↔ 0x10 ≤ id ∧ id ≤ 0x17) ∧
    Set.BijOn (channelId? p)
      {c | c ∈ ["Domain_Controllers", "Member_Servers", "Privileged_Access_Workstations",
        "Clients", "Critical", "Security", "PowerShell", "Application"]}
      (Set.image some (Set.Icc 0x10 0x17)) ∧
    channelId? "Advanced" "Critical" = some 0x14 := by
  have htab : channelsOf p =
      [("Domain_Controllers", 0x10), ("Member_Servers", 0x11),
        ("Privileged_Access_Workstations", 0x12), ("Clients", 0x13), ("Critical", 0x14),
        ("Security", 0x15), ("PowerShell", 0x16), ("Application", 0x17)] := by
    rw [providers_eq] at hp
    simp only [List.mem_cons, List.mem_singleton, List.not_mem_nil, or_false] at hp
    rcases hp with rfl | rfl
    · exact channelsOf_Basic
    · exact channelsOf_Advanced
  have hmaps : ∀ c ∈ ["Domain_Controllers", "Member_Servers",
      "Privileged_Access_Workstations", "Clients", "Critical", "Security", "PowerShell",
      "Application"], ∃ id ∈ List.range' 16 8, channelId? p c = some id := by
    intro c hc
    rw [channelId_eq_lookup, htab]
    revert c
    decide
  have hinj : ∀ a ∈ ["Domain_Controllers", "Member_Servers",
      "Privileged_Access_Workstations", "Clients", "Critical", "Security", "PowerShell",
      "Application"], ∀ b ∈ ["Domain_Controllers", "Member_Servers",
      "Privileged_Access_Workstations", "Clients", "Critical", "Security", "PowerShell",
      "Application"], channelId? p a = channelId? p b → a = b := by
    intro a ha b hb
    rw [channelId_eq_lookup, channelId_eq_lookup, htab]
    revert b
    revert a
    decide
  have hsurj : ∀ id ∈ List.range' 16 8, ∃ c ∈ ["Domain_Controllers", "Member_Servers",
      "Privileged_Access_Workstations", "Clients", "Critical", "Security", "PowerShell",
      "Application"], channelId? p c = some id := by
    intro id hid
    simp only [channelId_eq_lookup, htab]
    revert id
    decide
  have hrange : ∀ id : Nat, id ∈ List.range' 16 8 ↔ 0x10 ≤ id ∧ id ≤ 0x17 := by
    intro id
    rw [List.mem_range'_1]
    omega
  refine ⟨providers_eq, htab, ?_, ⟨?_, ?_, ?_⟩, by decide⟩
  · intro id
    rw [htab]
    simp only [List.map_cons, List.map_nil, List.mem_cons, List.mem_singleton,
      List.not_mem_nil, or_false]
    omega
  · intro c hc
    obtain ⟨id, hid, hv⟩ := hmaps c hc
    exact ⟨id, (hrange id).1 hid, hv.symm⟩
  · intro a ha b hb hab
    exact hinj a ha b hb hab
  · rintro o ⟨id, hid, rfl⟩
    obtain ⟨c, hc, hv⟩ := hsurj id ((hrange id).2 hid)
    exact ⟨c, hc, hv⟩

theorem channel_table_bijection_witness :
    "Advanced" ∈ providers ∧
    channelsOf "Advanced" =
      [("Domain_Controllers", 0x10), ("Member_Servers", 0x11),
        ("Privileged_Access_Workstations", 0x12), ("Clients", 0x13), ("Critical", 0x14),
        ("Security", 0x15), ("PowerShell", 0x16), ("Application", 0x17)] :=
  ⟨by decide, (channel_table_bijection "Advanced" (by decide)).2.1⟩

/-- Claim C4: the two provider GUIDs are distinct: `WEC_EVENTS_Basic` and
`WEC_EVENTS_Advanced` differ as 128-bit values, in fact in each of `Data1`, `Data2`,
`Data3` and `Data4`, so the two provider names never resolve to the same GUID. -/
theorem provider_guids_distinct :
    WEC_EVENTS_Basic ≠ WEC_EVENTS_Advanced ∧
    WEC_EVENTS_Basic.toNat ≠ WEC_EVENTS_Advanced.toNat ∧
    WEC_EVENTS_Basic.Data1 ≠ WEC_EVENTS_Advanced.Data1 ∧
    WEC_EVENTS_Basic.Data2 ≠ WEC_EVENTS_Advanced.Data2 ∧
    WEC_EVENTS_Basic.Data3 ≠ WEC_EVENTS_Advanced.Data3 ∧
    WEC_EVENTS_Basic.Data4 ≠ WEC_EVENTS_Advanced.Data4 ∧
    providerGUID? "Basic" ≠ providerGUID? "Advanced" ∧
    renderGUID WEC_EVENTS_Basic ≠ renderGUID WEC_EVENTS_Advanced := by
  refine ⟨by decide, by decide, by decide, by decide, by decide, by decide, by decide, by decide⟩

/-- Claim C5: within each provider channel IDs are unique: two distinct channel names
of the same provider have different channel IDs, so a channel ID identifies at most one
channel of its provider; neither the names nor the IDs of a provider repeat. -/
theorem channel_ids_unique (p : String) (hp : p ∈ providers) :
    (∀ c1 c2 : String, ∀ i1 i2 : Nat, c1 ≠ c2 →
      channelId? p c1 = some i1 → channelId? p c2 = some i2 → i1 ≠ i2) ∧
    (∀ c1 c2 : String, ∀ id : Nat,
      channelId? p c1 = some id → channelId? p c2 = some id → c1 = c2) ∧
    ((channelsOf p).map Prod.snd).Nodup ∧
    ((channelsOf p).map Prod.fst).Nodup := by
  have hids : ((channelsOf p).map Prod.snd).Nodup ∧ ((channelsOf p).map Prod.fst).Nodup := by
    rw [providers_eq] at hp
    simp only [List.mem_cons, List.mem_singleton, List.not_mem_nil, or_false] at hp
    rcases hp with rfl | rfl
    · rw [channelsOf_Basic]; exact ⟨by decide, by decide⟩
    · rw [channelsOf_Advanced]; exact ⟨by decide, by decide⟩
  have hinj : ∀ c1 c2 : String, ∀ id : Nat,
      channelId? p c1 = some id → channelId? p c2 = some id → c1 = c2 := by
    intro c1 c2 id h1 h2
    rw [channelId_eq_lookup] at h1 h2
    have m1 := mem_of_lookup_eq_some _ _ _ h1
    have m2 := mem_of_lookup_eq_some _ _ _ h2
    have := List.inj_on_of_nodup_map hids.1 m1 m2 rfl
    exact congrArg Prod.fst this
  refine ⟨?_, hinj, hids.1, hids.2⟩
  intro c1 c2 i1 i2 hne h1 h2 hi
  subst hi
  exact hne (hinj c1 c2 i1 h1 h2)

theorem channel_ids_unique_witness :
    "Basic" ∈ providers ∧ WEC_Basic_Critical ≠ WEC_Basic_Security :=
  ⟨by decide,
    (channel_ids_unique "Basic" (by decide)).1 "Critical" "Security" WEC_Basic_Critical
      WEC_Basic_Security (by decide) (by decide) (by decide)⟩

/-- Claim C6: the two providers agree on every channel: for every channel name the
Basic ID equals the Advanced ID (`WEC_Basic_c = WEC_Advanced_c`), and both providers
declare exactly the same eight channel names. -/
theorem providers_agree_on_channels :
    (∀ c : String, channelId? "Basic" c = channelId? "Advanced" c) ∧
    channelsOf "Basic" = channelsOf "Advanced" ∧
    (channelsOf "Basic").map Prod.fst =
      ["Domain_Controllers", "Member_Servers", "Privileged_Access_Workstations", "Clients",
        "Critical", "Security", "PowerShell", "Application"] ∧
    (channelsOf "Advanced").map Prod.fst =
      ["Domain_Controllers", "Member_Servers", "Privileged_Access_Workstations", "Clients",
        "Critical", "Security", "PowerShell", "Application"] ∧
    ["Domain_Controllers", "Member_Servers", "Privileged_Access_Workstations", "Clients",
        "Critical", "Security", "PowerShell", "Application"].map (channelId? "Basic") =
      [some 0x10, some 0x11, some 0x12, some 0x13, some 0x14, some 0x15, some 0x16, some 0x17] ∧
    WEC_Basic_Domain_Controllers = WEC_Advanced_Domain_Controllers ∧
    WEC_Basic_Member_Servers = WEC_Advanced_Member_Servers ∧
    WEC_Basic_Privileged_Access_Workstations = WEC_Advanced_Privileged_Access_Workstations ∧
    WEC_Basic_Clients = WEC_Advanced_Clients ∧
    WEC_Basic_Critical = WEC_Advanced_Critical ∧
    WEC_Basic_Security = WEC_Advanced_Security ∧
    WEC_Basic_PowerShell = WEC_Advanced_PowerShell ∧
    WEC_Basic_Application = WEC_Advanced_Application := by
  refine ⟨?_, by decide, by decide, by decide, by decide, rfl, rfl, rfl, rfl, rfl, rfl, rfl, rfl⟩
  intro c
  rw [channelId_eq_lookup, channelId_eq_lookup, channelsOf_Basic, channelsOf_Advanced]

/-- Claim C7: for each provider the declared GUID is a well-formed 128-bit identifier:
one `Data1` below 2^32, `Data2` and `Data3` below 2^16 and exactly eight `Data4` bytes
below 2^8; hence storing it truncates no field, its rendering has exactly 32 hexadecimal
digits in groups of 8, 4, 4, 4 and 12, and the rendering parses back to the same GUID. -/
theorem provider_guid_well_formed (p : String) (hp : p ∈ providers) :
    ∃ g : GUID, providerGUID? p = some g ∧
      (g.Data1 < 2 ^ 32 ∧ g.Data2 < 2 ^ 16 ∧ g.Data3 < 2 ^ 16 ∧
        g.Data4.length = 8 ∧ ∀ b ∈ g.Data4, b < 2 ^ 8) ∧
      g.store = g ∧
      (splitOn '-' (renderGUID g)).map List.length = [8, 4, 4, 4, 12] ∧
      (∀ grp ∈ splitOn '-' (renderGUID g), ∀ c ∈ grp, (hexValue? c).isSome) ∧
      ((renderGUID g).filter fun c => (hexValue? c).isSome).length = 32 ∧
      (renderGUID g).length = 36 ∧
      parseGUID? (renderGUID g) = some g := by
  rw [providers_eq] at hp
  simp only [List.mem_cons, List.mem_singleton, List.not_mem_nil, or_false] at hp
  rcases hp with rfl | rfl
  · have hwf : WEC_EVENTS_Basic.WellFormed := by decide
    exact ⟨WEC_EVENTS_Basic, by decide, hwf, store_eq_self _ hwf,
      (renderGUID_groups _ hwf.2.2.2.1).2, by decide, by decide, by decide,
      parseGUID_renderGUID _ hwf⟩
  · have hwf : WEC_EVENTS_Advanced.WellFormed := by decide
    exact ⟨WEC_EVENTS_Advanced, by decide, hwf, store_eq_self _ hwf,
      (renderGUID_groups _ hwf.2.2.2.1).2, by decide, by decide, by decide,
      parseGUID_renderGUID _ hwf⟩

theorem provider_guid_well_formed_witness :
    "Basic" ∈ providers ∧ ∃ g : GUID, providerGUID? "Basic" = some g ∧ g.store = g ∧
      parseGUID? (renderGUID g) = some g :=
  ⟨by decide,
    match provider_guid_well_formed "Basic" (by decide) with
    | ⟨g, hg, _, hs, _, _, _, _, hr⟩ => ⟨g, hg, hs, hr⟩⟩

/-- Claim C8: round-trip law for the constant table: serialising the table (each
provider GUID as its 8-4-4-4-12 hexadecimal string, each channel ID as its hexadecimal
literal) and parsing the text back gives a table equal to the original, with the same
two GUID values and the same sixteen channel-ID values. -/
theorem constant_table_round_trip :
    parse? (serialise header) = some header ∧
    (parse? (serialise header)).map guidsOf =
      some [("WEC_EVENTS_Basic", WEC_EVENTS_Basic), ("WEC_EVENTS_Advanced", WEC_EVENTS_Advanced)] ∧
    (parse? (serialise header)).map definesOf = some (definesOf header) ∧
    (definesOf header).length = 16 ∧
    (splitOn (Char.ofNat 10) (serialise header)).map String.mk =
      [ "WEC_EVENTS_Basic cf27f07f-7013-483a-bc74-97a0f6aa32fc",
        "WEC_Basic_Domain_Controllers 0x10",
        "WEC_Basic_Member_Servers 0x11",
        "WEC_Basic_Privileged_Access_Workstations 0x12",
        "WEC_Basic_Clients 0x13",
        "WEC_Basic_Critical 0x14",
        "WEC_Basic_Security 0x15",
        "WEC_Basic_PowerShell 0x16",
        "WEC_Basic_Application 0x17",
        "WEC_EVENTS_Advanced 0014355c-d05c-4b81-9c93-1f6a3907e535",
        "WEC_Advanced_Domain_Controllers 0x10",
        "WEC_Advanced_Member_Servers 0x11",
        "WEC_Advanced_Privileged_Access_Workstations 0x12",
        "WEC_Advanced_Clients 0x13",
        "WEC_Advanced_Critical 0x14",
        "WEC_Advanced_Security 0x15",
        "WEC_Advanced_PowerShell 0x16",
        "WEC_Advanced_Application 0x17" ] := by
  have hrt : parse? (serialise header) = some header :=
    parse_serialise header (by decide)
  refine ⟨hrt, ?_, ?_, by decide, by decide⟩
  · rw [hrt]; decide
  · rw [hrt]; rfl

/-- Claim C9: every channel-ID constant of both providers lies in the range 16..255:
it fits in an unsigned 8-bit value and is at least 16, so it is none of the values
0..15 reserved for system-defined channels. -/
theorem channel_id_range (e : String × Nat) (h : e ∈ definesOf header) :
    16 ≤ e.2 ∧ e.2 ≤ 255 ∧ e.2 % 2 ^ 8 = e.2 ∧ e.2 ∉ List.range 16 := by
  have hall : ∀ d ∈ definesOf header,
      16 ≤ d.2 ∧ d.2 ≤ 255 ∧ d.2 % 2 ^ 8 = d.2 ∧ d.2 ∉ List.range 16 := by decide
  exact hall e h

theorem channel_id_range_witness :
    ("WEC_Advanced_Application", WEC_Advanced_Application) ∈ definesOf header ∧
      16 ≤ WEC_Advanced_Application ∧ WEC_Advanced_Application ≤ 255 :=
  ⟨by decide,
    (channel_id_range ("WEC_Advanced_Application", WEC_Advanced_Application) (by decide)).1,
    (channel_id_range ("WEC_Advanced_Application", WEC_Advanced_Application) (by decide)).2.1⟩

/-- Claim C10: both provider GUIDs are non-nil RFC 4122 version-4 identifiers: for each
of `WEC_EVENTS_Basic` and `WEC_EVENTS_Advanced` the top four bits of `Data3` equal 4
(`Data3 / 2^12 = 4`), the top two bits of `Data4[0]` equal binary 10
(`Data4[0] / 2^6 = 2`), and the GUID is not the all-zero GUID. -/
theorem provider_guids_version4 :
    WEC_EVENTS_Basic.Data3 / 2 ^ 12 = 4 ∧
    WEC_EVENTS_Basic.Data4[0]?.map (· / 2 ^ 6) = some 2 ∧
    WEC_EVENTS_Basic ≠ GUID.nil ∧
    WEC_EVENTS_Advanced.Data3 / 2 ^ 12 = 4 ∧
    WEC_EVENTS_Advanced.Data4[0]?.map (· / 2 ^ 6) = some 2 ∧
    WEC_EVENTS_Advanced ≠ GUID.nil := by
  refine ⟨by decide, by decide, by decide, by decide, by decide, by decide⟩

end CustomEventChannels
